import Mathlib

/-!
Verification development for the Cryptopulse trading-signal engine.

The definitions below are shallow embeddings of the indicator functions and
the signal analyzers of the repository, with JavaScript numbers modelled as
exact rationals (`ℚ`), nullable/NaN-valued series entries as `Option ℚ`, and
millisecond timestamps as `ℤ`.  Namespaces:

* `Indicators`  – gain/loss preprocessing shared by both RSI implementations.
* `BotSignals`  – `ema`, `sma`, `rsiWilder`, `macdSeries` from
  `src/src/bot-signals.js`.
* `MarketData`  – `calculateSMA`, `calculateEMA`, `calculateRSI`,
  `calculateMACD`, `calculateTechnicalIndicators` and the indicator columns
  stored by `processMarketData`, from `server/services/marketData.ts`
  (`src/unnamed/part_001`; the demo service in `part_000` duplicates the same
  functions).  `NaN` entries are modelled as `none`.
* `TradingBot`  – `analyzeSignal` (crossover variant, `part_002`/`part_003`)
  and `analyzeSignalRealTime` (confirmation-scoring variant, `part_003`)
  together with the cooldown / startup-guard state.
-/

namespace Indicators

/-- Per-step deltas `closes[i] - closes[i-1]` for `i = 1, …`. -/
def diffs (closes : List ℚ) : List ℚ :=
  List.zipWith (fun a b => a - b) closes.tail closes

/-- The gains series: `change > 0 ? change : 0` per delta. -/
def gainsOf (closes : List ℚ) : List ℚ :=
  (diffs closes).map fun d => if 0 < d then d else 0

/-- The losses series: `change < 0 ? |change| : 0` per delta. -/
def lossesOf (closes : List ℚ) : List ℚ :=
  (diffs closes).map fun d => if d < 0 then -d else 0

end Indicators

namespace BotSignals

/-- The EMA recursion `prev = values[i]*k + prev*(1-k)` over the remaining
values, from `ema` in `src/src/bot-signals.js`. -/
def emaGo (k : ℚ) : ℚ → List ℚ → List ℚ
  | _, [] => []
  | prev, v :: vs =>
    let next := v * k + prev * (1 - k)
    next :: emaGo k next vs

/-- `ema(values, period)` from `src/src/bot-signals.js`: all-`none` for
series shorter than `period`, otherwise seeded at index `period - 1` with the
simple mean of the first `period` values.  (The source's degenerate behaviour
at `period = 0` is NaN-valued and not modelled; all theorems that depend on
the seed assume a positive period.) -/
def ema (values : List ℚ) (period : ℕ) : List (Option ℚ) :=
  if values.length < period then List.replicate values.length none
  else
    let k : ℚ := 2 / ((period : ℚ) + 1)
    let seed : ℚ := (values.take period).sum / period
    List.replicate (period - 1) none ++ some seed :: (emaGo k seed (values.drop period)).map some

/-- Output bundle of `macdSeries`. -/
structure MacdResult where
  macd : List (Option ℚ)
  signalLine : List (Option ℚ)
  hist : List (Option ℚ)
deriving DecidableEq, Repr

/-- `macdSeries(closes, fast, slow, signal)` from `src/src/bot-signals.js`:
the MACD line is `emaFast - emaSlow` where both are numbers (else `null`);
for the signal line every `null` MACD entry is coalesced to `0`
(`macdForSignal`) and the EMA runs over that full-length series; the
histogram is `macd - signalLine` where both are numbers. -/
def macdSeries (closes : List ℚ) (fast slow signalPeriod : ℕ) : MacdResult :=
  let emaFast := ema closes fast
  let emaSlow := ema closes slow
  let macd := (List.range closes.length).map fun i =>
    match emaFast.getD i none, emaSlow.getD i none with
    | some a, some b => some (a - b)
    | _, _ => none
  let macdForSignal := macd.map fun v => v.getD 0
  let signalLine := ema macdForSignal signalPeriod
  let hist := (List.range closes.length).map fun i =>
    match macd.getD i none, signalLine.getD i none with
    | some v, some s => some (v - s)
    | _, _ => none
  ⟨macd, signalLine, hist⟩

/-- One Wilder smoothing step per remaining close, carrying the running
`avgGain`, `avgLoss` and the previous close, from `rsiWilder` in
`src/src/bot-signals.js`.  Note the source clamps `rs` to `100` when the
smoothed average loss is zero (it does not return `100` directly). -/
def rsiGo (period : ℕ) : ℚ → ℚ → ℚ → List ℚ → List ℚ
  | _, _, _, [] => []
  | avgGain, avgLoss, prevClose, c :: cs =>
    let d := c - prevClose
    let g := if 0 < d then d else 0
    let l := if d < 0 then -d else 0
    let avgGain2 := (avgGain * ((period : ℚ) - 1) + g) / period
    let avgLoss2 := (avgLoss * ((period : ℚ) - 1) + l) / period
    let rs := if avgLoss2 = 0 then 100 else avgGain2 / avgLoss2
    (100 - 100 / (1 + rs)) :: rsiGo period avgGain2 avgLoss2 c cs

/-- `rsiWilder(closes, period)` from `src/src/bot-signals.js`: all-`none`
when `closes.length ≤ period`; seeded at index `period` from the simple mean
of the first `period` gains/losses (`100` exactly when the seed average loss
is zero), then Wilder-smoothed via `rsiGo`. -/
def rsiWilder (closes : List ℚ) (period : ℕ) : List (Option ℚ) :=
  if closes.length ≤ period then List.replicate closes.length none
  else
    let avgGain := ((Indicators.gainsOf closes).take period).sum / period
    let avgLoss := ((Indicators.lossesOf closes).take period).sum / period
    let seed : ℚ := if avgLoss = 0 then 100 else 100 - 100 / (1 + avgGain / avgLoss)
    List.replicate period none ++ some seed ::
      (rsiGo period avgGain avgLoss (closes.getD period 0) (closes.drop (period + 1))).map some

/-- Loop body of `sma(values, period)` from `src/src/bot-signals.js`:
running sum with the element `period` places back subtracted once `i ≥
period`, emitting `sum / period` from index `period - 1` on.  `fuel` is the
number of remaining iterations, `i` the current index. -/
def smaGo (values : List ℚ) (period : ℕ) : ℕ → ℕ → ℚ → List (Option ℚ)
  | 0, _, _ => []
  | fuel + 1, i, sum =>
    let s1 := sum + values.getD i 0
    let s2 := if period ≤ i then s1 - values.getD (i - period) 0 else s1
    (if period - 1 ≤ i then some (s2 / period) else none) :: smaGo values period fuel (i + 1) s2

/-- `sma(values, period)` from `src/src/bot-signals.js`. -/
def sma (values : List ℚ) (period : ℕ) : List (Option ℚ) :=
  if values.length < period then List.replicate values.length none
  else smaGo values period values.length 0 0

end BotSignals

namespace MarketData

/-- `calculateSMA(values, period)` from `marketData.ts`: `NaN` (here `none`)
before index `period - 1`, else the mean of `values.slice(i-period+1, i+1)`. -/
def calculateSMA (values : List ℚ) (period : ℕ) : List (Option ℚ) :=
  (List.range values.length).map fun i =>
    if i < period - 1 then none
    else some ((((values.drop (i + 1 - period)).take period).sum) / period)

/-- The recursion of `calculateEMA`: `ema[i] = values[i]*k + ema[i-1]*(1-k)`. -/
def emaGo (k : ℚ) : ℚ → List ℚ → List ℚ
  | _, [] => []
  | prev, v :: vs =>
    let next := v * k + prev * (1 - k)
    next :: emaGo k next vs

/-- `calculateEMA(values, period)` from `marketData.ts`: seeded at index `0`
with `values[0]` (no warm-up, every output defined), then the standard EMA
recursion with `k = 2/(period+1)`. -/
def calculateEMA (values : List ℚ) (period : ℕ) : List ℚ :=
  let k : ℚ := 2 / ((period : ℚ) + 1)
  match values with
  | [] => []
  | v :: vs => v :: emaGo k v vs

/-- `calculateRSI(values, period)` from `marketData.ts`: per-window simple
averages of gains and losses, `100` exactly when the window's average loss is
zero, and a leading `NaN` (`none`) because the gain/loss series starts at
index 1. -/
def calculateRSI (values : List ℚ) (period : ℕ) : List (Option ℚ) :=
  let gains := Indicators.gainsOf values
  let losses := Indicators.lossesOf values
  let body := (List.range gains.length).map fun i =>
    if i < period - 1 then none
    else
      let avgGain := ((gains.drop (i + 1 - period)).take period).sum / period
      let avgLoss := ((losses.drop (i + 1 - period)).take period).sum / period
      if avgLoss = 0 then some 100
      else some (100 - 100 / (1 + avgGain / avgLoss))
  none :: body

/-- JavaScript's `isNaN` on the model's exact rationals: the MACD pipeline in
`marketData.ts` only ever applies it to real-valued entries (its EMA has no
NaN warm-up), so it is identically `false` here. -/
def jsIsNaN (_ : ℚ) : Bool := false

/-- Output bundle of `calculateMACD`. -/
structure MACDData where
  macd : List ℚ
  signal : List (Option ℚ)
  histogram : List (Option ℚ)
deriving DecidableEq, Repr

/-- `calculateMACD(values, fast, slow, signal)` from `marketData.ts`:
`macd = fastEMA - slowEMA` pointwise, the signal line is the EMA of the
non-NaN entries of `macd` left-padded with `NaN` (`none`) to the MACD
length, and the histogram is `macd[i] - paddedSignal[i]` (NaN-propagating). -/
def calculateMACD (values : List ℚ) (fastPeriod slowPeriod signalPeriod : ℕ) : MACDData :=
  let fastEMA := calculateEMA values fastPeriod
  let slowEMA := calculateEMA values slowPeriod
  let macd := (List.range fastEMA.length).map fun i => fastEMA.getD i 0 - slowEMA.getD i 0
  let sig := calculateEMA (macd.filter fun v => !(jsIsNaN v)) signalPeriod
  let paddedSignal := List.replicate (macd.length - sig.length) (none : Option ℚ) ++ sig.map some
  let histogram := (List.range macd.length).map fun i =>
    (paddedSignal.getD i none).map fun s => macd.getD i 0 - s
  ⟨macd, paddedSignal, histogram⟩

/-- JavaScript `x || null` on a nullable numeric column: `null` and `0` (and
`NaN`, modelled as `none`) are falsy and collapse to `null`. -/
def jsOrNullOpt (v : Option ℚ) : Option ℚ :=
  match v with
  | none => none
  | some x => if x = 0 then none else some x

/-- JavaScript `x || null` on a plain numeric value. -/
def jsOrNull (x : ℚ) : Option ℚ :=
  if x = 0 then none else some x

/-- JavaScript `x || 0` on a nullable numeric value. -/
def jsOrZeroOpt (v : Option ℚ) : ℚ :=
  match v with
  | none => 0
  | some x => if x = 0 then 0 else x

/-- Indicator part of the configuration bag handed to the market-data
service. -/
structure IndicatorConfig where
  macdFast : ℕ
  macdSlow : ℕ
  macdSignal : ℕ
  rsiPeriod : ℕ
  volumePeriod : ℕ
deriving DecidableEq, Repr

/-- Result record of `calculateTechnicalIndicators`. -/
structure TechnicalIndicators where
  rsi : ℚ
  macd : ℚ
  macdSignal : ℚ
  macdHistogram : ℚ
deriving DecidableEq, Repr

/-- `calculateTechnicalIndicators(closes, volumes, config)` from
`marketData.ts`: the last entry of each computed series, with `x || 0`
coalescing (undefined, NaN and exact zero all become `0`). -/
def calculateTechnicalIndicators (closes : List ℚ) (cfg : IndicatorConfig) :
    TechnicalIndicators :=
  let rsiValues := calculateRSI closes cfg.rsiPeriod
  let macdData := calculateMACD closes cfg.macdFast cfg.macdSlow cfg.macdSignal
  let lastIndex := closes.length - 1
  { rsi := jsOrZeroOpt (rsiValues.getD lastIndex none)
    macd := jsOrZeroOpt (some (macdData.macd.getD lastIndex 0))
    macdSignal := jsOrZeroOpt (macdData.signal.getD lastIndex none)
    macdHistogram := jsOrZeroOpt (macdData.histogram.getD lastIndex none) }

/-- The indicator columns of one stored market-data record. -/
structure StoredIndicators where
  rsi : Option ℚ
  macd : Option ℚ
  macdSignal : Option ℚ
  macdHistogram : Option ℚ
deriving DecidableEq, Repr

/-- The indicator columns written by `processMarketData` in `marketData.ts`
(lines 161–180; `DemoMarketDataService.processMarketData` in `part_000`
applies the same `|| null` coalescing): per bar index `i`, each computed
indicator value is stored through JavaScript's `x || null`. -/
def storedIndicators (closes : List ℚ) (cfg : IndicatorConfig) : List StoredIndicators :=
  let rsiValues := calculateRSI closes cfg.rsiPeriod
  let macdData := calculateMACD closes cfg.macdFast cfg.macdSlow cfg.macdSignal
  (List.range closes.length).map fun i =>
    { rsi := jsOrNullOpt (rsiValues.getD i none)
      macd := jsOrNull (macdData.macd.getD i 0)
      macdSignal := jsOrNullOpt (macdData.signal.getD i none)
      macdHistogram := jsOrNullOpt (macdData.histogram.getD i none) }

end MarketData

namespace TradingBot

/-- Signal direction. -/
inductive SignalType where
  | buy
  | sell
deriving DecidableEq, Repr

/-- The `InsertSignal` record produced by the analyzers. -/
structure InsertSignal where
  symbol : String
  type : SignalType
  price : ℚ
  rsi : ℚ
  macd : ℚ
  macdSignal : ℚ
  volume : ℚ
deriving DecidableEq, Repr

/-- One market-data row as consumed by the analyzers, with the indicator
fields already known to be defined (the callers guard on that before use,
and the analyzers read them through non-null assertions). -/
structure MarketRow where
  symbol : String
  close : ℚ
  volume : ℚ
  rsi : ℚ
  macd : ℚ
  macdSignal : ℚ
deriving DecidableEq, Repr

/-- The configuration fields the analyzers read: RSI band and the alert
cooldown in minutes. -/
structure Config where
  rsiLower : ℚ
  rsiUpper : ℚ
  alertCooldown : ℤ
deriving DecidableEq, Repr

/-- Mutable engine state of `TradingBotService` (`part_003`): running flag,
`lastAlertTime` and `startupProtectionTime`, all timestamps in ms. -/
structure BotState where
  isRunning : Bool
  lastAlertTime : Option ℤ
  startupProtectionTime : Option ℤ
deriving DecidableEq, Repr

/-- Builds the emitted `InsertSignal` from the current row (both analyzers
construct it the same way; `price` is the current close). -/
def mkSignal (t : SignalType) (cur : MarketRow) : InsertSignal :=
  { symbol := cur.symbol
    type := t
    price := cur.close
    rsi := cur.rsi
    macd := cur.macd
    macdSignal := cur.macdSignal
    volume := cur.volume }

/-- The cooldown test shared by both analyzers: active iff `lastAlertTime`
is set and `now - lastAlertTime < alertCooldown` minutes (in ms). -/
def cooldownActive (lastAlertTime : Option ℤ) (cfg : Config) (now : ℤ) : Prop :=
  ∃ t, lastAlertTime = some t ∧ now - t < cfg.alertCooldown * 60 * 1000

instance (lastAlertTime : Option ℤ) (cfg : Config) (now : ℤ) :
    Decidable (cooldownActive lastAlertTime cfg now) :=
  match lastAlertTime with
  | some t =>
    decidable_of_iff (now - t < cfg.alertCooldown * 60 * 1000) (by simp [cooldownActive])
  | none => isFalse (by simp [cooldownActive])

/-- `analyzeSignal(current, previous, config)` from `part_002`/`part_003`
(lines 138–185, identical in both revisions): MACD crossover detection,
RSI band and `volume > 0` gates, then the cooldown check, then BUY on an
upward crossover and SELL on a downward one. -/
def analyzeSignal (lastAlertTime : Option ℤ) (cur prev : MarketRow) (cfg : Config)
    (now : ℤ) : Option InsertSignal :=
  if ¬(cfg.rsiLower < cur.rsi ∧ cur.rsi < cfg.rsiUpper) ∨ ¬(0 < cur.volume) then none
  else if cooldownActive lastAlertTime cfg now then none
  else if prev.macd < prev.macdSignal ∧ cur.macdSignal < cur.macd then
    some (mkSignal SignalType.buy cur)
  else if prev.macdSignal < prev.macd ∧ cur.macd < cur.macdSignal then
    some (mkSignal SignalType.sell cur)
  else none

/-- The startup-guard window of `analyzeSignalRealTime`: 2 minutes in ms. -/
def startupProtectionMs : ℤ := 2 * 60 * 1000

/-- Number of satisfied BUY conditions in `analyzeSignalRealTime`
(`part_003` lines 452–455): RSI at or below `rsiLower + 10`, and MACD above
its signal line while above `-0.001`. -/
def buyScore (cfg : Config) (cur : MarketRow) : ℕ :=
  (if cur.rsi ≤ cfg.rsiLower + 10 then 1 else 0) +
  (if cur.macdSignal < cur.macd ∧ -(1 / 1000 : ℚ) < cur.macd then 1 else 0)

/-- Number of satisfied SELL conditions in `analyzeSignalRealTime`
(`part_003` lines 458–461): RSI at or above `rsiUpper - 10`, and MACD below
its signal line while below `0.001`. -/
def sellScore (cfg : Config) (cur : MarketRow) : ℕ :=
  (if cfg.rsiUpper - 10 ≤ cur.rsi then 1 else 0) +
  (if cur.macd < cur.macdSignal ∧ cur.macd < (1 / 1000 : ℚ) then 1 else 0)

/-- The decision tail of `analyzeSignalRealTime` (`part_003` lines 468–493):
BUY if at least one buy condition holds, else SELL if at least one sell
condition holds, else none. -/
def analyzeCore (cfg : Config) (cur : MarketRow) : Option InsertSignal :=
  if 1 ≤ buyScore cfg cur then some (mkSignal SignalType.buy cur)
  else if 1 ≤ sellScore cfg cur then some (mkSignal SignalType.sell cur)
  else none

/-- The cooldown-and-decision part of `analyzeSignalRealTime` reached once
the startup guard is inactive. -/
def afterGuard (st : BotState) (cur : MarketRow) (cfg : Config) (now : ℤ) :
    Option InsertSignal × BotState :=
  if cooldownActive st.lastAlertTime cfg now then (none, st)
  else (analyzeCore cfg cur, st)

/-- `analyzeSignalRealTime(current, config)` from `part_003` (lines
419–494), with the mutation of `startupProtectionTime` made explicit in the
returned state: while the guard is younger than 2 minutes every call returns
none; once expired the guard is cleared and the cooldown check and the
confirmation scoring run. -/
def analyzeSignalRealTime (st : BotState) (cur : MarketRow) (cfg : Config) (now : ℤ) :
    Option InsertSignal × BotState :=
  match st.startupProtectionTime with
  | some t0 =>
    if now - t0 < startupProtectionMs then (none, st)
    else afterGuard { st with startupProtectionTime := none } cur cfg now
  | none => afterGuard st cur cfg now

/-- `start()` from `part_003` (lines 269–292), state part: sets the running
flag and arms the startup guard at the current time. -/
def start (st : BotState) (now0 : ℤ) : BotState :=
  { st with isRunning := true, startupProtectionTime := some now0 }

/-- `stop()` from `part_003` (lines 294–305), state part: clears the running
flag and the startup guard; `lastAlertTime` is retained. -/
def stop (st : BotState) : BotState :=
  { st with isRunning := false, startupProtectionTime := none }

/-- `processSignal` state effect (`part_003` line 550): records the alert
time, arming the cooldown. -/
def processSignalState (st : BotState) (now : ℤ) : BotState :=
  { st with lastAlertTime := some now }

end TradingBot

/-- Modelled from the spec: the signal-line construction of §4.1 —
`signalLine = ema(macdLine, signal)` computed only over the defined portion
of the MACD line, left-padded with undefined entries to realign indices —
using the seeded `ema` of `src/src/bot-signals.js` (the implementation the
MACD line comes from). -/
def specSignalAligned (macdLine : List (Option ℚ)) (signalPeriod : ℕ) : List (Option ℚ) :=
  let defPart := macdLine.reduceOption
  List.replicate (macdLine.length - defPart.length) none ++ BotSignals.ema defPart signalPeriod

/-- Modelled from the spec: the same §4.1 signal-line construction, but
using `MarketData.calculateEMA` (the EMA policy of `marketData.ts`, whose
outputs are all defined and are wrapped in `some` for alignment). -/
def specSignalAligned1 (macdLine : List (Option ℚ)) (signalPeriod : ℕ) : List (Option ℚ) :=
  let defPart := macdLine.reduceOption
  List.replicate (macdLine.length - defPart.length) none ++
    (MarketData.calculateEMA defPart signalPeriod).map some

section HelperLemmas

lemma getD_range_map {β : Type} (f : ℕ → β) (d : β) (n i : ℕ) (h : i < n) :
    ((List.range n).map f).getD i d = f i := by
  rw [List.getD_eq_getElem?_getD, List.getElem?_map, List.getElem?_range h]
  rfl

lemma reduceOption_map_some (l : List ℚ) : (l.map some).reduceOption = l := by
  induction l with
  | nil => rfl
  | cons a t ih => simp [ih]

lemma emaGo_length (k p : ℚ) (l : List ℚ) : (BotSignals.emaGo k p l).length = l.length := by
  induction l generalizing p with
  | nil => rfl
  | cons v vs ih => simp [BotSignals.emaGo, ih]

lemma marketEmaGo_length (k p : ℚ) (l : List ℚ) :
    (MarketData.emaGo k p l).length = l.length := by
  induction l generalizing p with
  | nil => rfl
  | cons v vs ih => simp [MarketData.emaGo, ih]

lemma calculateEMA_length (values : List ℚ) (period : ℕ) :
    (MarketData.calculateEMA values period).length = values.length := by
  cases values with
  | nil => rfl
  | cons v vs => simp [MarketData.calculateEMA, marketEmaGo_length]

lemma rsiGo_length (period : ℕ) (ag al pc : ℚ) (l : List ℚ) :
    (BotSignals.rsiGo period ag al pc l).length = l.length := by
  induction l generalizing ag al pc with
  | nil => rfl
  | cons c cs ih => simp [BotSignals.rsiGo, ih]

lemma smaGo_length (values : List ℚ) (period fuel i : ℕ) (sum : ℚ) :
    (BotSignals.smaGo values period fuel i sum).length = fuel := by
  induction fuel generalizing i sum with
  | zero => rfl
  | succ n ih => simp [BotSignals.smaGo, ih]

lemma diffs_length (closes : List ℚ) : (Indicators.diffs closes).length = closes.length - 1 := by
  cases closes with
  | nil => rfl
  | cons c cs => simp [Indicators.diffs]

lemma gainsOf_length (closes : List ℚ) :
    (Indicators.gainsOf closes).length = closes.length - 1 := by
  simp [Indicators.gainsOf, diffs_length]

lemma lossesOf_length (closes : List ℚ) :
    (Indicators.lossesOf closes).length = closes.length - 1 := by
  simp [Indicators.lossesOf, diffs_length]

lemma isSome_getD_padded (m : ℕ) (a : ℚ) (l : List ℚ) (i : ℕ) :
    ((List.replicate m (none : Option ℚ) ++ some a :: l.map some).getD i none).isSome = true ↔
      m ≤ i ∧ i < m + 1 + l.length := by
  rw [List.getD_eq_getElem?_getD]
  rcases lt_or_le i m with h | h
  · rw [List.getElem?_append_left (by simpa using h), List.getElem?_replicate, if_pos h]
    simp [h, Nat.not_le.mpr h]
  · rw [List.getElem?_append_right (by simpa using h)]
    simp only [List.length_replicate]
    rcases Nat.eq_or_lt_of_le h with rfl | hlt
    · simp only [Nat.sub_self, List.getElem?_cons_zero, Option.getD_some, Option.isSome_some,
        true_iff]
      exact ⟨h, by omega⟩
    · obtain ⟨j, hj⟩ : ∃ j, i - m = j + 1 := ⟨i - m - 1, by omega⟩
      rw [hj]
      simp only [List.getElem?_cons_succ]
      rcases lt_or_le j l.length with hjl | hjl
      · rw [List.getElem?_map]
        rw [List.getElem?_eq_getElem hjl]
        simp only [Option.map_some', Option.getD_some, Option.isSome_some, true_iff]
        exact ⟨h, by omega⟩
      · rw [List.getElem?_eq_none (by simpa using hjl)]
        simp only [Option.getD_none, Option.isSome_none, Bool.false_eq_true, false_iff]
        intro hc
        omega

end HelperLemmas

/-- C1 (counterexample): an evaluation with no cooldown active, an upward
MACD crossover (`-1/500 < -1/1000` previously, `1/1000 > 1/2000` now) and
RSI `45` inside the band `(20, 80)` — but `volume = 0` — returns none, not a
BUY signal: `analyzeSignal` additionally requires `current.volume > 0`. -/
theorem analyzeSignal_zero_volume_no_buy :
    ((-1 : ℚ) / 500 < -1 / 1000) ∧ ((1 : ℚ) / 2000 < 1 / 1000) ∧
    ((20 : ℚ) < 45) ∧ ((45 : ℚ) < 80) ∧
    TradingBot.analyzeSignal none
      ⟨"XLMUSDT", 1001 / 1000, 0, 45, 1 / 1000, 1 / 2000⟩
      ⟨"XLMUSDT", 1, 1, 45, -1 / 500, -1 / 1000⟩
      ⟨20, 80, 5⟩ 0 = none := by
  refine ⟨by norm_num, by norm_num, by norm_num, by norm_num, ?_⟩
  norm_num [TradingBot.analyzeSignal, TradingBot.cooldownActive]

/-- C2 (counterexample): with the guard and cooldown inactive, a row with
RSI `25` and MACD `-1/100` below its signal line `0` scores `1` for BUY and
`1` for SELL — both meet the minimum threshold of 1 and the scores tie — yet
`analyzeSignalRealTime` returns the BUY signal, not none. -/
theorem analyzeSignalRealTime_tie_returns_buy :
    TradingBot.buyScore ⟨20, 80, 5⟩ ⟨"XLMUSDT", 1, 1, 25, -1 / 100, 0⟩ = 1 ∧
    TradingBot.sellScore ⟨20, 80, 5⟩ ⟨"XLMUSDT", 1, 1, 25, -1 / 100, 0⟩ = 1 ∧
    (TradingBot.analyzeSignalRealTime ⟨false, none, none⟩
        ⟨"XLMUSDT", 1, 1, 25, -1 / 100, 0⟩ ⟨20, 80, 5⟩ 0).1 =
      some (TradingBot.mkSignal TradingBot.SignalType.buy
        ⟨"XLMUSDT", 1, 1, 25, -1 / 100, 0⟩) := by
  refine ⟨?_, ?_, ?_⟩
  · norm_num [TradingBot.buyScore]
  · norm_num [TradingBot.sellScore]
  · have h : ¬ TradingBot.cooldownActive none ⟨20, 80, 5⟩ 0 := by
      simp [TradingBot.cooldownActive]
    norm_num [TradingBot.analyzeSignalRealTime, TradingBot.afterGuard, TradingBot.analyzeCore,
      h, TradingBot.buyScore, TradingBot.sellScore]

/-- C5 (counterexample): on the strictly rising closes `[1, 2, 3]` with
period `1` every loss is `0`, so the smoothed average loss stays `0`, yet
`rsiWilder`'s value after the seed is `100 - 100/101 = 10000/101`, not
exactly `100` (the recursive step clamps `rs` to `100` instead of returning
`100`). -/
theorem rsiWilder_zero_loss_not_100 :
    Indicators.lossesOf [1, 2, 3] = [0, 0] ∧
    BotSignals.rsiWilder [1, 2, 3] 1 = [none, some 100, some (10000 / 101)] ∧
    (10000 / 101 : ℚ) ≠ 100 := by
  refine ⟨?_, ?_, by norm_num⟩
  · norm_num [Indicators.lossesOf, Indicators.diffs]
  · norm_num [BotSignals.rsiWilder, BotSignals.rsiGo, Indicators.gainsOf, Indicators.lossesOf,
      Indicators.diffs, List.replicate]

/-- C6 (counterexample): for closes `[1, 3]` with `fast = 1`, `slow = 2`,
`signal = 1`, the MACD line is `[undefined, 1]`; the spec's construction
(EMA over the defined portion, left-padded) gives `[undefined, 1]`, but
`macdSeries` coalesces the undefined entry to `0` and EMAs the full series,
producing `[0, 1]` — defined at an index where the MACD line is undefined. -/
theorem macdSeries_signalLine_not_aligned :
    (BotSignals.macdSeries [1, 3] 1 2 1).macd = [none, some 1] ∧
    (BotSignals.macdSeries [1, 3] 1 2 1).signalLine = [some 0, some 1] ∧
    specSignalAligned (BotSignals.macdSeries [1, 3] 1 2 1).macd 1 = [none, some 1] ∧
    (BotSignals.macdSeries [1, 3] 1 2 1).signalLine ≠
      specSignalAligned (BotSignals.macdSeries [1, 3] 1 2 1).macd 1 := by
  have hmacd : (BotSignals.macdSeries [1, 3] 1 2 1).macd = [none, some 1] := by
    norm_num [BotSignals.macdSeries, BotSignals.ema, BotSignals.emaGo, List.range_succ]
  have hsig : (BotSignals.macdSeries [1, 3] 1 2 1).signalLine = [some 0, some 1] := by
    norm_num [BotSignals.macdSeries, BotSignals.ema, BotSignals.emaGo, List.range_succ]
  have hspec : specSignalAligned (BotSignals.macdSeries [1, 3] 1 2 1).macd 1 = [none, some 1] := by
    norm_num [specSignalAligned, BotSignals.macdSeries, BotSignals.ema, BotSignals.emaGo,
      List.range_succ, List.reduceOption, List.filterMap_cons, List.filterMap_nil, id]
  refine ⟨hmacd, hsig, hspec, ?_⟩
  rw [hsig, hspec]
  simp

/-- C9 (counterexample): `calculateRSI` on the empty series returns the
one-element series `[NaN]`, not a series of the input's length `0`; and on
the one-bar series `[1]` (shorter than `slow = 3` requires) `macdSeries`'s
signal line contains the defined entry `0`, not an all-undefined series. -/
theorem short_input_exceptions :
    MarketData.calculateRSI [] 14 = [none] ∧
    (MarketData.calculateRSI [] 14).length ≠ ([] : List ℚ).length ∧
    (BotSignals.macdSeries [1] 2 3 1).signalLine = [some 0] := by
  have h1 : MarketData.calculateRSI [] 14 = [none] := by
    norm_num [MarketData.calculateRSI, Indicators.gainsOf, Indicators.lossesOf, Indicators.diffs]
  refine ⟨h1, by rw [h1]; simp, ?_⟩
  norm_num [BotSignals.macdSeries, BotSignals.ema, BotSignals.emaGo, List.range_succ]

/-- C1 (amended): with the cooldown inactive and all indicator fields
defined, `analyzeSignal` returns a BUY signal iff the upward MACD crossover
holds, the RSI lies strictly inside `(rsiLower, rsiUpper)` and additionally
`current.volume > 0`; a SELL signal iff the symmetric downward crossover
holds with the same RSI band and positive volume; none when no crossover
occurred; and any emitted signal's price equals the current close. -/
theorem analyzeSignal_crossover_characterization
    (cfg : TradingBot.Config) (cur prev : TradingBot.MarketRow) (now : ℤ) :
    ((∃ s, TradingBot.analyzeSignal none cur prev cfg now = some s ∧
        s.type = TradingBot.SignalType.buy) ↔
      (prev.macd < prev.macdSignal ∧ cur.macdSignal < cur.macd ∧
       cfg.rsiLower < cur.rsi ∧ cur.rsi < cfg.rsiUpper ∧ 0 < cur.volume)) ∧
    ((∃ s, TradingBot.analyzeSignal none cur prev cfg now = some s ∧
        s.type = TradingBot.SignalType.sell) ↔
      (prev.macdSignal < prev.macd ∧ cur.macd < cur.macdSignal ∧
       cfg.rsiLower < cur.rsi ∧ cur.rsi < cfg.rsiUpper ∧ 0 < cur.volume)) ∧
    (¬(prev.macd < prev.macdSignal ∧ cur.macdSignal < cur.macd) →
      ¬(prev.macdSignal < prev.macd ∧ cur.macd < cur.macdSignal) →
      TradingBot.analyzeSignal none cur prev cfg now = none) ∧
    (∀ s, TradingBot.analyzeSignal none cur prev cfg now = some s →
      s.price = cur.close) := by
  have hnc : ¬ TradingBot.cooldownActive none cfg now := by simp [TradingBot.cooldownActive]
  have hform : TradingBot.analyzeSignal none cur prev cfg now =
      if ¬(cfg.rsiLower < cur.rsi ∧ cur.rsi < cfg.rsiUpper) ∨ ¬(0 < cur.volume) then none
      else if prev.macd < prev.macdSignal ∧ cur.macdSignal < cur.macd then
        some (TradingBot.mkSignal TradingBot.SignalType.buy cur)
      else if prev.macdSignal < prev.macd ∧ cur.macd < cur.macdSignal then
        some (TradingBot.mkSignal TradingBot.SignalType.sell cur)
      else none := by
    unfold TradingBot.analyzeSignal
    rw [if_neg hnc]
  refine ⟨?_, ?_, ?_, ?_⟩ <;> rw [hform]
  · constructor
    · rintro ⟨s, hs, hty⟩
      split_ifs at hs with h1 h2 h3
      · push_neg at h1
        exact ⟨h2.1, h2.2, h1.1.1, h1.1.2, h1.2⟩
      · simp only [Option.some.injEq] at hs
        subst hs
        simp [TradingBot.mkSignal] at hty
    · rintro ⟨hA, hB, hE, hF, hG⟩
      rw [if_neg (by push_neg; exact ⟨⟨hE, hF⟩, hG⟩), if_pos ⟨hA, hB⟩]
      exact ⟨_, rfl, rfl⟩
  · constructor
    · rintro ⟨s, hs, hty⟩
      split_ifs at hs with h1 h2 h3
      · simp only [Option.some.injEq] at hs
        subst hs
        simp [TradingBot.mkSignal] at hty
      · push_neg at h1
        exact ⟨h3.1, h3.2, h1.1.1, h1.1.2, h1.2⟩
    · rintro ⟨hC, hD, hE, hF, hG⟩
      have hnup : ¬(prev.macd < prev.macdSignal ∧ cur.macdSignal < cur.macd) := by
        rintro ⟨a, _⟩
        linarith
      rw [if_neg (by push_neg; exact ⟨⟨hE, hF⟩, hG⟩), if_neg hnup, if_pos ⟨hC, hD⟩]
      exact ⟨_, rfl, rfl⟩
  · intro hu hd
    by_cases hgate : ¬(cfg.rsiLower < cur.rsi ∧ cur.rsi < cfg.rsiUpper) ∨ ¬(0 < cur.volume)
    · rw [if_pos hgate]
    · rw [if_neg hgate, if_neg hu, if_neg hd]
  · intro s hs
    split_ifs at hs with h1 h2 h3
    · simp only [Option.some.injEq] at hs
      subst hs
      rfl
    · simp only [Option.some.injEq] at hs
      subst hs
      rfl

/-- C1 (witness): the spec's crossover scenario — prior MACD `-0.002` below
its signal `-0.001`, current MACD `0.001` above its signal `0.0005`, RSI
`45` inside `(20, 80)`, positive volume — emits a BUY signal. -/
theorem analyzeSignal_crossover_characterization_witness :
    ∃ s, TradingBot.analyzeSignal none
        ⟨"XLMUSDT", 1001 / 1000, 1, 45, 1 / 1000, 1 / 2000⟩
        ⟨"XLMUSDT", 1, 1, 45, -(1 / 500), -(1 / 1000)⟩
        ⟨20, 80, 5⟩ 0 = some s ∧ s.type = TradingBot.SignalType.buy :=
  (analyzeSignal_crossover_characterization ⟨20, 80, 5⟩
      ⟨"XLMUSDT", 1001 / 1000, 1, 45, 1 / 1000, 1 / 2000⟩
      ⟨"XLMUSDT", 1, 1, 45, -(1 / 500), -(1 / 1000)⟩ 0).1.mpr
    (by norm_num)

/-- C2 (amended): with the startup guard and the cooldown inactive,
`analyzeSignalRealTime` returns the BUY signal iff the buy-score meets the
minimum threshold of 1 — regardless of the sell-score, so a tie yields BUY —
and returns the SELL signal iff the buy-score is 0 and the sell-score meets
the threshold. -/
theorem analyzeSignalRealTime_buy_precedence
    (st : TradingBot.BotState) (cfg : TradingBot.Config) (cur : TradingBot.MarketRow)
    (now : ℤ) (hg : st.startupProtectionTime = none)
    (hc : ¬ TradingBot.cooldownActive st.lastAlertTime cfg now) :
    ((TradingBot.analyzeSignalRealTime st cur cfg now).1 =
        some (TradingBot.mkSignal TradingBot.SignalType.buy cur) ↔
      1 ≤ TradingBot.buyScore cfg cur) ∧
    ((TradingBot.analyzeSignalRealTime st cur cfg now).1 =
        some (TradingBot.mkSignal TradingBot.SignalType.sell cur) ↔
      (TradingBot.buyScore cfg cur = 0 ∧ 1 ≤ TradingBot.sellScore cfg cur)) := by
  have hres : (TradingBot.analyzeSignalRealTime st cur cfg now).1 =
      TradingBot.analyzeCore cfg cur := by
    rcases st with ⟨r, la, sp⟩
    cases hg
    simp only [TradingBot.analyzeSignalRealTime, TradingBot.afterGuard]
    rw [if_neg hc]
  rw [hres]
  unfold TradingBot.analyzeCore
  constructor
  · split_ifs with h1 h2
    · simp [h1]
    · simp only [Option.some.injEq]
      constructor
      · intro h
        simp [TradingBot.mkSignal] at h
      · intro h
        exact absurd h h1
    · simp [h1]
  · split_ifs with h1 h2
    · simp only [Option.some.injEq]
      constructor
      · intro h
        simp [TradingBot.mkSignal] at h
      · rintro ⟨h0, _⟩
        omega
    · simp only [Option.some.injEq]
      constructor
      · intro _
        exact ⟨by omega, h2⟩
      · intro _
        trivial
    · simp [h1, h2]

/-- C2 (witness): instantiating the precedence characterization at a
concrete row whose buy-score is 1 with guard and cooldown inactive. -/
theorem analyzeSignalRealTime_buy_precedence_witness :
    (TradingBot.analyzeSignalRealTime ⟨false, none, none⟩
        ⟨"XLMUSDT", 2, 3, 25, 1, 0⟩ ⟨20, 80, 5⟩ 0).1 =
      some (TradingBot.mkSignal TradingBot.SignalType.buy ⟨"XLMUSDT", 2, 3, 25, 1, 0⟩) :=
  (analyzeSignalRealTime_buy_precedence ⟨false, none, none⟩ ⟨20, 80, 5⟩
      ⟨"XLMUSDT", 2, 3, 25, 1, 0⟩ 0 rfl (by simp [TradingBot.cooldownActive])).1.mpr
    (by norm_num [TradingBot.buyScore])

/-- C3: with `alertCooldownMinutes = 5` and a signal emitted at `t0`
(`lastAlertTime = t0`), every evaluation strictly inside `(t0, t0 + 5min)`
returns none regardless of the row's indicator values, and an evaluation at
`t0 + 5min + 1s` with the guard clear and qualifying indicator values
returns a signal. -/
theorem cooldown_enforcement (cfg : TradingBot.Config) (st : TradingBot.BotState) (t0 : ℤ)
    (hcd : cfg.alertCooldown = 5) (hla : st.lastAlertTime = some t0) :
    (∀ (cur : TradingBot.MarketRow) (now : ℤ), t0 < now → now < t0 + 5 * 60 * 1000 →
      (TradingBot.analyzeSignalRealTime st cur cfg now).1 = none) ∧
    (∀ cur : TradingBot.MarketRow, st.startupProtectionTime = none →
      (1 ≤ TradingBot.buyScore cfg cur ∨ 1 ≤ TradingBot.sellScore cfg cur) →
      ((TradingBot.analyzeSignalRealTime st cur cfg (t0 + 5 * 60 * 1000 + 1000)).1).isSome
        = true) := by
  constructor
  · intro cur now h1 h2
    have hcool : ∀ la : Option ℤ, la = some t0 → TradingBot.cooldownActive la cfg now := by
      intro la hval
      exact ⟨t0, hval, by rw [hcd]; omega⟩
    rcases st with ⟨r, la, sp⟩
    simp only at hla
    cases sp with
    | none =>
      simp only [TradingBot.analyzeSignalRealTime, TradingBot.afterGuard]
      rw [if_pos (hcool la hla)]
    | some tg =>
      simp only [TradingBot.analyzeSignalRealTime, TradingBot.afterGuard]
      by_cases hgg : now - tg < TradingBot.startupProtectionMs
      · rw [if_pos hgg]
      · rw [if_neg hgg, if_pos (hcool la hla)]
  · intro cur hsp hq
    have hncool : ¬ TradingBot.cooldownActive st.lastAlertTime cfg (t0 + 5 * 60 * 1000 + 1000) := by
      rintro ⟨t, hval, hlt⟩
      rw [hla] at hval
      cases hval
      rw [hcd] at hlt
      omega
    rcases st with ⟨r, la, sp⟩
    simp only at hsp
    cases hsp
    simp only [TradingBot.analyzeSignalRealTime, TradingBot.afterGuard]
    rw [if_neg hncool]
    unfold TradingBot.analyzeCore
    rcases hq with h | h
    · rw [if_pos h]
      rfl
    · by_cases hb : 1 ≤ TradingBot.buyScore cfg cur
      · rw [if_pos hb]
        rfl
      · rw [if_neg hb, if_pos h]
        rfl

/-- C3 (witness): with a signal emitted at time 0 and the 5-minute cooldown,
evaluation at 100 s returns none, and evaluation at 301 s with a qualifying
row (buy-score 1) returns a signal. -/
theorem cooldown_enforcement_witness :
    (TradingBot.analyzeSignalRealTime ⟨true, some 0, none⟩
        ⟨"XLMUSDT", 2, 3, 25, 1, 0⟩ ⟨20, 80, 5⟩ 100000).1 = none ∧
    ((TradingBot.analyzeSignalRealTime ⟨true, some 0, none⟩
        ⟨"XLMUSDT", 2, 3, 25, 1, 0⟩ ⟨20, 80, 5⟩ (0 + 5 * 60 * 1000 + 1000)).1).isSome = true :=
  ⟨(cooldown_enforcement ⟨20, 80, 5⟩ ⟨true, some 0, none⟩ 0 rfl rfl).1
      ⟨"XLMUSDT", 2, 3, 25, 1, 0⟩ 100000 (by norm_num) (by norm_num),
   (cooldown_enforcement ⟨20, 80, 5⟩ ⟨true, some 0, none⟩ 0 rfl rfl).2
      ⟨"XLMUSDT", 2, 3, 25, 1, 0⟩ rfl (Or.inl (by norm_num [TradingBot.buyScore]))⟩

/-- C4: immediately after `start(now0)` every evaluation with
`now < now0 + 2min` returns none (and the guard stays armed), even for rows
that would otherwise qualify; once `now` reaches `now0 + 2min` the guard is
cleared in the resulting state and, with no cooldown pending and qualifying
indicator values, a signal is emitted. -/
theorem startup_guard (st : TradingBot.BotState) (now0 : ℤ) (cfg : TradingBot.Config)
    (cur : TradingBot.MarketRow) (now : ℤ) :
    (now < now0 + 2 * 60 * 1000 →
      (TradingBot.analyzeSignalRealTime (TradingBot.start st now0) cur cfg now).1 = none ∧
      (TradingBot.analyzeSignalRealTime
          (TradingBot.start st now0) cur cfg now).2.startupProtectionTime = some now0) ∧
    (now0 + 2 * 60 * 1000 ≤ now →
      (TradingBot.analyzeSignalRealTime
          (TradingBot.start st now0) cur cfg now).2.startupProtectionTime = none ∧
      (st.lastAlertTime = none →
        (1 ≤ TradingBot.buyScore cfg cur ∨ 1 ≤ TradingBot.sellScore cfg cur) →
        ((TradingBot.analyzeSignalRealTime (TradingBot.start st now0) cur cfg now).1).isSome
          = true)) := by
  constructor
  · intro hlt
    have hgg : now - now0 < TradingBot.startupProtectionMs := by
      unfold TradingBot.startupProtectionMs
      omega
    simp only [TradingBot.analyzeSignalRealTime, TradingBot.start]
    rw [if_pos hgg]
    exact ⟨rfl, rfl⟩
  · intro hge
    have hgg : ¬ (now - now0 < TradingBot.startupProtectionMs) := by
      unfold TradingBot.startupProtectionMs
      omega
    simp only [TradingBot.analyzeSignalRealTime, TradingBot.start]
    rw [if_neg hgg]
    constructor
    · unfold TradingBot.afterGuard
      by_cases hc : TradingBot.cooldownActive st.lastAlertTime cfg now
      · rw [if_pos hc]
      · rw [if_neg hc]
    · intro hla hq
      have hnc : ¬ TradingBot.cooldownActive st.lastAlertTime cfg now := by
        rintro ⟨t, hval, _⟩
        rw [hla] at hval
        cases hval
      unfold TradingBot.afterGuard
      rw [if_neg hnc]
      unfold TradingBot.analyzeCore
      rcases hq with h | h
      · rw [if_pos h]
        rfl
      · by_cases hb : 1 ≤ TradingBot.buyScore cfg cur
        · rw [if_pos hb]
          rfl
        · rw [if_neg hb, if_pos h]
          rfl

/-- C4 (witness): after `start` at time 0, an evaluation of a qualifying row
at 60 s is suppressed with the guard still armed; at 120 s the guard is
cleared and the signal is emitted. -/
theorem startup_guard_witness :
    ((TradingBot.analyzeSignalRealTime (TradingBot.start ⟨false, none, none⟩ 0)
        ⟨"XLMUSDT", 2, 3, 25, 1, 0⟩ ⟨20, 80, 5⟩ 60000).1 = none) ∧
    ((TradingBot.analyzeSignalRealTime (TradingBot.start ⟨false, none, none⟩ 0)
        ⟨"XLMUSDT", 2, 3, 25, 1, 0⟩ ⟨20, 80, 5⟩ 120000).1).isSome = true :=
  ⟨((startup_guard ⟨false, none, none⟩ 0 ⟨20, 80, 5⟩
      ⟨"XLMUSDT", 2, 3, 25, 1, 0⟩ 60000).1 (by norm_num)).1,
   ((startup_guard ⟨false, none, none⟩ 0 ⟨20, 80, 5⟩
      ⟨"XLMUSDT", 2, 3, 25, 1, 0⟩ 120000).2 (by norm_num)).2 rfl
     (Or.inl (by norm_num [TradingBot.buyScore]))⟩

lemma gains_mem_nonneg (closes : List ℚ) : ∀ x ∈ Indicators.gainsOf closes, 0 ≤ x := by
  intro x hx
  simp only [Indicators.gainsOf, List.mem_map] at hx
  obtain ⟨d, _, rfl⟩ := hx
  split_ifs with h
  · linarith
  · exact le_refl 0

lemma losses_mem_nonneg (closes : List ℚ) : ∀ x ∈ Indicators.lossesOf closes, 0 ≤ x := by
  intro x hx
  simp only [Indicators.lossesOf, List.mem_map] at hx
  obtain ⟨d, _, rfl⟩ := hx
  split_ifs with h
  · linarith
  · exact le_refl 0

lemma sum_take_drop_nonneg (l : List ℚ) (h : ∀ x ∈ l, 0 ≤ x) (a b : ℕ) :
    0 ≤ ((l.drop a).take b).sum :=
  List.sum_nonneg fun x hx => h x (List.mem_of_mem_drop (List.mem_of_mem_take hx))

lemma rsi_of_rs_bounds (rs : ℚ) (h : 0 ≤ rs) :
    0 ≤ 100 - 100 / (1 + rs) ∧ 100 - 100 / (1 + rs) ≤ 100 := by
  have h1 : (0 : ℚ) < 1 + rs := by linarith
  have h2 : 100 / (1 + rs) ≤ 100 := by
    rw [div_le_iff₀ h1]
    nlinarith
  have h3 : 0 < 100 / (1 + rs) := by positivity
  constructor <;> linarith

lemma avg_step_nonneg (p : ℕ) (a x : ℚ) (ha : 0 ≤ a) (hx : 0 ≤ x) :
    0 ≤ (a * ((p : ℚ) - 1) + x) / p := by
  rcases Nat.eq_zero_or_pos p with rfl | hp
  · simp
  · have hp1 : (1 : ℚ) ≤ (p : ℚ) := by exact_mod_cast hp
    apply div_nonneg
    · have : 0 ≤ a * ((p : ℚ) - 1) := mul_nonneg ha (by linarith)
      linarith
    · linarith

lemma rsiGo_mem_bounds (period : ℕ) (cs : List ℚ) :
    ∀ (ag al pc : ℚ), 0 ≤ ag → 0 ≤ al →
      ∀ v ∈ BotSignals.rsiGo period ag al pc cs, 0 ≤ v ∧ v ≤ 100 := by
  induction cs with
  | nil =>
    intro ag al pc _ _ v hv
    simp [BotSignals.rsiGo] at hv
  | cons c cs ih =>
    intro ag al pc hag hal v hv
    simp only [BotSignals.rsiGo, List.mem_cons] at hv
    set g := (if 0 < c - pc then c - pc else 0) with hgdef
    set l := (if c - pc < 0 then -(c - pc) else 0) with hldef
    set ag2 := (ag * ((period : ℚ) - 1) + g) / period with hag2def
    set al2 := (al * ((period : ℚ) - 1) + l) / period with hal2def
    have hg : 0 ≤ g := by
      rw [hgdef]
      split_ifs with h
      · linarith
      · exact le_refl 0
    have hl : 0 ≤ l := by
      rw [hldef]
      split_ifs with h
      · linarith
      · exact le_refl 0
    have hag2 : 0 ≤ ag2 := by
      rw [hag2def]
      exact avg_step_nonneg period ag g hag hg
    have hal2 : 0 ≤ al2 := by
      rw [hal2def]
      exact avg_step_nonneg period al l hal hl
    rcases hv with rfl | hv
    · apply rsi_of_rs_bounds
      by_cases h : al2 = 0
      · rw [if_pos h]
        norm_num
      · rw [if_neg h]
        exact div_nonneg hag2 hal2
    · exact ih _ _ _ hag2 hal2 v hv

/-- C5 (amended): every defined value of both RSI implementations lies in
`[0, 100]` (the zero-divisor case is an explicit branch in both); and for
the windowed `calculateRSI` a zero average loss over the window yields
exactly `100`.  (For `rsiWilder` the exactly-100 rule holds only at the seed
index; at later indices a zero smoothed average loss yields `100 - 100/101`,
see the counterexample.) -/
theorem rsi_bounds_and_zero_loss :
    (∀ (closes : List ℚ) (period : ℕ) (v : ℚ),
        some v ∈ MarketData.calculateRSI closes period → 0 ≤ v ∧ v ≤ 100) ∧
    (∀ (closes : List ℚ) (period : ℕ) (v : ℚ),
        some v ∈ BotSignals.rsiWilder closes period → 0 ≤ v ∧ v ≤ 100) ∧
    (∀ (closes : List ℚ) (period i : ℕ), period - 1 ≤ i →
        i < (Indicators.gainsOf closes).length →
        (((Indicators.lossesOf closes).drop (i + 1 - period)).take period).sum / (period : ℚ)
            = 0 →
        (MarketData.calculateRSI closes period).getD (i + 1) none = some 100) := by
  refine ⟨?_, ?_, ?_⟩
  · intro closes period v hv
    simp only [MarketData.calculateRSI, List.mem_cons, List.mem_map, List.mem_range] at hv
    rcases hv with h | ⟨i, _, hfi⟩
    · exact Option.noConfusion h
    · split_ifs at hfi with h1 h2
      · rw [Option.some.injEq] at hfi
        subst hfi
        norm_num
      · rw [Option.some.injEq] at hfi
        subst hfi
        have hga : 0 ≤ (((Indicators.gainsOf closes).drop (i + 1 - period)).take period).sum
            / (period : ℚ) :=
          div_nonneg (sum_take_drop_nonneg _ (gains_mem_nonneg closes) _ _) (by positivity)
        have hla : 0 ≤ (((Indicators.lossesOf closes).drop (i + 1 - period)).take period).sum
            / (period : ℚ) :=
          div_nonneg (sum_take_drop_nonneg _ (losses_mem_nonneg closes) _ _) (by positivity)
        exact rsi_of_rs_bounds _ (div_nonneg hga hla)
  · intro closes period v hv
    rw [BotSignals.rsiWilder] at hv
    split_ifs at hv with hshort
    · exact Option.noConfusion (List.eq_of_mem_replicate hv)
    · have hga : 0 ≤ ((Indicators.gainsOf closes).take period).sum / (period : ℚ) :=
        div_nonneg (List.sum_nonneg fun x hx =>
          gains_mem_nonneg closes x (List.mem_of_mem_take hx)) (by positivity)
      have hla : 0 ≤ ((Indicators.lossesOf closes).take period).sum / (period : ℚ) :=
        div_nonneg (List.sum_nonneg fun x hx =>
          losses_mem_nonneg closes x (List.mem_of_mem_take hx)) (by positivity)
      simp only [List.mem_append, List.mem_replicate, List.mem_cons, List.mem_map] at hv
      rcases hv with ⟨_, h⟩ | h | ⟨w, hw, hws⟩
      · exact Option.noConfusion h
      · rw [Option.some.injEq] at h
        split_ifs at h with h0
        · subst h
          norm_num
        · subst h
          exact rsi_of_rs_bounds _ (div_nonneg hga hla)
      · rw [Option.some.injEq] at hws
        subst hws
        exact rsiGo_mem_bounds period _ _ _ _ hga hla w hw
  · intro closes period i hpi hlen hzero
    simp only [MarketData.calculateRSI, List.getD_cons_succ]
    rw [getD_range_map _ _ _ _ hlen]
    rw [if_neg (by omega), if_pos hzero]

/-- C5 (witness): the bounds applied to the defined value `100` of both
implementations on `[1, 2]` with period 1, and the zero-average-loss window
of `[1, 2]` yielding exactly `100` at index `1`. -/
theorem rsi_bounds_and_zero_loss_witness :
    (some 100 ∈ MarketData.calculateRSI [1, 2] 1) ∧
    (some 100 ∈ BotSignals.rsiWilder [1, 2] 1) ∧
    (0 ≤ (100 : ℚ) ∧ (100 : ℚ) ≤ 100) ∧
    (MarketData.calculateRSI [1, 2] 1).getD 1 none = some 100 := by
  have h1 : MarketData.calculateRSI [1, 2] 1 = [none, some 100] := by
    norm_num [MarketData.calculateRSI, Indicators.gainsOf, Indicators.lossesOf, Indicators.diffs,
      List.range_succ]
  have h2 : BotSignals.rsiWilder [1, 2] 1 = [none, some 100] := by
    norm_num [BotSignals.rsiWilder, BotSignals.rsiGo, Indicators.gainsOf, Indicators.lossesOf,
      Indicators.diffs, List.replicate]
  refine ⟨by rw [h1]; simp, by rw [h2]; simp, ?_, ?_⟩
  · exact rsi_bounds_and_zero_loss.1 [1, 2] 1 100 (by rw [h1]; simp)
  · exact rsi_bounds_and_zero_loss.2.2 [1, 2] 1 0 (by norm_num)
      (by norm_num [Indicators.gainsOf, Indicators.diffs])
      (by norm_num [Indicators.lossesOf, Indicators.diffs])

lemma getD_oob {β : Type} (l : List β) (d : β) (i : ℕ) (h : l.length ≤ i) : l.getD i d = d := by
  rw [List.getD_eq_getElem?_getD, List.getElem?_eq_none h]
  rfl

lemma filter_no_nan (m : List ℚ) : m.filter (fun v => !(MarketData.jsIsNaN v)) = m := by
  simp [MarketData.jsIsNaN]

/-- C6 (amended): for `calculateMACD` of `marketData.ts` the spec's
construction holds: the signal line equals the EMA over the defined portion
of the MACD line, left-padded with undefined entries to realign — trivially
so, because this revision's EMA policy has no warm-up, the MACD line is
everywhere defined, and the padding is empty.  (For `macdSeries` of
`bot-signals.js` the construction fails: undefined MACD entries are
coalesced to `0` and do contribute to the signal EMA — see the
counterexample.) -/
theorem calculateMACD_signal_aligned (values : List ℚ) (fp sp sgp : ℕ) :
    (MarketData.calculateMACD values fp sp sgp).signal =
      specSignalAligned1 ((MarketData.calculateMACD values fp sp sgp).macd.map some) sgp := by
  simp only [MarketData.calculateMACD, specSignalAligned1]
  rw [filter_no_nan, reduceOption_map_some]
  simp [calculateEMA_length, Nat.sub_self]

/-- C7: wherever both the MACD value and the signal-line value are defined,
the histogram equals their difference exactly — in `macdSeries` of
`bot-signals.js` and in `calculateMACD` of `marketData.ts` (whose MACD line
is everywhere defined, so only the signal value needs to be defined). -/
theorem macd_histogram_identity :
    (∀ (closes : List ℚ) (fast slow sgp i : ℕ) (a b : ℚ),
      (BotSignals.macdSeries closes fast slow sgp).macd.getD i none = some a →
      (BotSignals.macdSeries closes fast slow sgp).signalLine.getD i none = some b →
      (BotSignals.macdSeries closes fast slow sgp).hist.getD i none = some (a - b)) ∧
    (∀ (values : List ℚ) (fp sp sgp i : ℕ) (b : ℚ),
      (MarketData.calculateMACD values fp sp sgp).signal.getD i none = some b →
      (MarketData.calculateMACD values fp sp sgp).histogram.getD i none =
        some ((MarketData.calculateMACD values fp sp sgp).macd.getD i 0 - b)) := by
  constructor
  · intro closes fast slow sgp i a b ha hb
    simp only [BotSignals.macdSeries] at ha hb ⊢
    by_cases hi : i < closes.length
    · rw [getD_range_map _ _ _ _ hi] at ha
      rw [getD_range_map _ _ _ _ hi]
      rw [getD_range_map _ _ _ _ hi]
      rw [ha, hb]
    · rw [getD_oob _ _ _ (by simp; omega)] at ha
      exact Option.noConfusion ha
  · intro values fp sp sgp i b hb
    simp only [MarketData.calculateMACD] at hb ⊢
    rw [filter_no_nan] at hb ⊢
    have hlen : i < ((List.range (MarketData.calculateEMA values fp).length).map
        (fun j => (MarketData.calculateEMA values fp).getD j 0 -
          (MarketData.calculateEMA values sp).getD j 0)).length := by
      by_contra hge
      rw [getD_oob _ _ _ ?_] at hb
      · exact Option.noConfusion hb
      · simp only [List.length_append, List.length_replicate, List.length_map,
          List.length_range, calculateEMA_length] at hge ⊢
        omega
    rw [getD_range_map _ _ _ _ (by simpa using hlen), hb]
    rfl

/-- C7 (witness): the identity instantiated on concrete series for both
implementations. -/
theorem macd_histogram_identity_witness :
    ((BotSignals.macdSeries [1, 3] 1 2 1).hist.getD 1 none = some (1 - 1)) ∧
    ((MarketData.calculateMACD [1, 2] 1 2 1).histogram.getD 1 none =
      some ((MarketData.calculateMACD [1, 2] 1 2 1).macd.getD 1 0 - 1 / 3)) := by
  have ha : (BotSignals.macdSeries [1, 3] 1 2 1).macd.getD 1 none = some 1 := by
    norm_num [BotSignals.macdSeries, BotSignals.ema, BotSignals.emaGo, List.range_succ]
  have hb : (BotSignals.macdSeries [1, 3] 1 2 1).signalLine.getD 1 none = some 1 := by
    norm_num [BotSignals.macdSeries, BotSignals.ema, BotSignals.emaGo, List.range_succ]
  have hc : (MarketData.calculateMACD [1, 2] 1 2 1).signal.getD 1 none = some (1 / 3) := by
    norm_num [MarketData.calculateMACD, MarketData.calculateEMA, MarketData.emaGo,
      MarketData.jsIsNaN, List.range_succ, List.filter]
  exact ⟨macd_histogram_identity.1 [1, 3] 1 2 1 1 1 1 ha hb,
    macd_histogram_identity.2 [1, 2] 1 2 1 1 (1 / 3) hc⟩

lemma getD_replicate_none {β : Type} (n i : ℕ) :
    (List.replicate n (none : Option β)).getD i none = none := by
  rw [List.getD_eq_getElem?_getD, List.getElem?_replicate]
  split_ifs <;> rfl

lemma smaGo_getD_char (values : List ℚ) (period : ℕ) :
    ∀ (fuel i0 j : ℕ) (sum : ℚ), j < fuel →
      (((BotSignals.smaGo values period fuel i0 sum).getD j none).isSome = true ↔
        period - 1 ≤ i0 + j) := by
  intro fuel
  induction fuel with
  | zero =>
    intro i0 j sum hj
    omega
  | succ n ih =>
    intro i0 j sum hj
    cases j with
    | zero =>
      simp only [BotSignals.smaGo, List.getD_cons_zero]
      by_cases h : period - 1 ≤ i0
      · rw [if_pos h]
        simp only [Option.isSome_some, true_iff]
        omega
      · rw [if_neg h]
        simp only [Option.isSome_none, Bool.false_eq_true, false_iff]
        omega
    | succ j =>
      simp only [BotSignals.smaGo, List.getD_cons_succ]
      rw [ih (i0 + 1) j _ (by omega)]
      omega

/-- C8: each indicator has a single warm-up threshold — defined at an index
iff the index is at or past the threshold, with no gaps: `sma`/`ema` of
`bot-signals.js` are defined exactly from index `period - 1` on (provided
the series is long enough), `rsiWilder` exactly from index `period` on
(provided `length > period`), `calculateSMA` of `marketData.ts` exactly from
`period - 1`, and `calculateRSI` exactly from index `period` — one bar later
than its seed window closes.  (`calculateEMA` of `marketData.ts` returns a
plain everywhere-defined series: its threshold is index 0.) -/
theorem warmup_monotone (p : ℕ) (hp : 0 < p) :
    (∀ (values : List ℚ) (i : ℕ), i < values.length →
      (((BotSignals.sma values p).getD i none).isSome = true ↔
        (p ≤ values.length ∧ p - 1 ≤ i))) ∧
    (∀ (values : List ℚ) (i : ℕ), i < values.length →
      (((BotSignals.ema values p).getD i none).isSome = true ↔
        (p ≤ values.length ∧ p - 1 ≤ i))) ∧
    (∀ (closes : List ℚ) (i : ℕ), i < closes.length →
      (((BotSignals.rsiWilder closes p).getD i none).isSome = true ↔
        (p < closes.length ∧ p ≤ i))) ∧
    (∀ (values : List ℚ) (i : ℕ), i < values.length →
      (((MarketData.calculateSMA values p).getD i none).isSome = true ↔ p - 1 ≤ i)) ∧
    (∀ (closes : List ℚ) (i : ℕ), i < (MarketData.calculateRSI closes p).length →
      (((MarketData.calculateRSI closes p).getD i none).isSome = true ↔
        (p ≤ i ∧ i < closes.length))) := by
  refine ⟨?_, ?_, ?_, ?_, ?_⟩
  · intro values i hi
    unfold BotSignals.sma
    split_ifs with hs
    · rw [getD_replicate_none]
      simp only [Option.isSome_none, Bool.false_eq_true, false_iff]
      rintro ⟨h1, _⟩
      omega
    · rw [smaGo_getD_char values p values.length 0 i 0 hi]
      omega
  · intro values i hi
    unfold BotSignals.ema
    split_ifs with hs
    · rw [getD_replicate_none]
      simp only [Option.isSome_none, Bool.false_eq_true, false_iff]
      rintro ⟨h1, _⟩
      omega
    · rw [isSome_getD_padded]
      simp only [emaGo_length, List.length_drop]
      omega
  · intro closes i hi
    unfold BotSignals.rsiWilder
    split_ifs with hs
    · rw [getD_replicate_none]
      simp only [Option.isSome_none, Bool.false_eq_true, false_iff]
      rintro ⟨h1, _⟩
      omega
    · rw [isSome_getD_padded]
      simp only [rsiGo_length, List.length_drop]
      omega
  · intro values i hi
    unfold MarketData.calculateSMA
    rw [getD_range_map _ _ _ _ hi]
    split_ifs with h
    · simp only [Option.isSome_none, Bool.false_eq_true, false_iff]
      omega
    · simp only [Option.isSome_some, true_iff]
      omega
  · intro closes i hi
    have hg := gainsOf_length closes
    have hlen : (MarketData.calculateRSI closes p).length =
        (Indicators.gainsOf closes).length + 1 := by
      simp [MarketData.calculateRSI]
    cases i with
    | zero =>
      simp only [MarketData.calculateRSI, List.getD_cons_zero, Option.isSome_none,
        Bool.false_eq_true, false_iff]
      rintro ⟨h1, _⟩
      omega
    | succ j =>
      have hj : j < (Indicators.gainsOf closes).length := by
        rw [hlen] at hi
        omega
      simp only [MarketData.calculateRSI, List.getD_cons_succ]
      rw [getD_range_map _ _ _ _ hj]
      split_ifs with h h2
      · simp only [Option.isSome_none, Bool.false_eq_true, false_iff]
        omega
      · simp only [Option.isSome_some, true_iff]
        omega
      · simp only [Option.isSome_some, true_iff]
        omega

/-- C8 (witness): the characterizations instantiated at concrete series and
indices for each indicator, with period 2 (resp. 1). -/
theorem warmup_monotone_witness :
    (((BotSignals.sma [1, 2, 3] 2).getD 1 none).isSome = true ↔ (2 ≤ 3 ∧ 1 ≤ 1)) ∧
    (((BotSignals.ema [1, 2, 3] 2).getD 0 none).isSome = true ↔ (2 ≤ 3 ∧ 1 ≤ 0)) ∧
    (((BotSignals.rsiWilder [1, 2, 3] 2).getD 2 none).isSome = true ↔ (2 < 3 ∧ 2 ≤ 2)) ∧
    (((MarketData.calculateSMA [1, 2, 3] 2).getD 0 none).isSome = true ↔ 1 ≤ 0) ∧
    (((MarketData.calculateRSI [1, 2] 1).getD 1 none).isSome = true ↔ (1 ≤ 1 ∧ 1 < 2)) :=
  ⟨(warmup_monotone 2 (by norm_num)).1 [1, 2, 3] 1 (by norm_num),
   (warmup_monotone 2 (by norm_num)).2.1 [1, 2, 3] 0 (by norm_num),
   (warmup_monotone 2 (by norm_num)).2.2.1 [1, 2, 3] 2 (by norm_num),
   (warmup_monotone 2 (by norm_num)).2.2.2.1 [1, 2, 3] 0 (by norm_num),
   (warmup_monotone 1 (by norm_num)).2.2.2.2 [1, 2] 1 (by
     norm_num [MarketData.calculateRSI, Indicators.gainsOf, Indicators.diffs])⟩

lemma ema_short (values : List ℚ) (p : ℕ) (h : values.length < p) :
    BotSignals.ema values p = List.replicate values.length none := by
  unfold BotSignals.ema
  rw [if_pos h]

lemma sma_short (values : List ℚ) (p : ℕ) (h : values.length < p) :
    BotSignals.sma values p = List.replicate values.length none := by
  unfold BotSignals.sma
  rw [if_pos h]

lemma rsiWilder_short (closes : List ℚ) (p : ℕ) (h : closes.length ≤ p) :
    BotSignals.rsiWilder closes p = List.replicate closes.length none := by
  unfold BotSignals.rsiWilder
  rw [if_pos h]

lemma calculateSMA_short (values : List ℚ) (p : ℕ) (h : values.length < p) :
    MarketData.calculateSMA values p = List.replicate values.length none := by
  refine List.eq_replicate_iff.mpr ⟨by simp [MarketData.calculateSMA], ?_⟩
  intro b hb
  simp only [MarketData.calculateSMA, List.mem_map, List.mem_range] at hb
  obtain ⟨i, hi, rfl⟩ := hb
  rw [if_pos (by omega)]

lemma calculateRSI_short (closes : List ℚ) (p : ℕ) (h0 : closes.length ≠ 0)
    (h : closes.length ≤ p) :
    MarketData.calculateRSI closes p = List.replicate closes.length none := by
  have hg := gainsOf_length closes
  have hrep : List.replicate closes.length (none : Option ℚ) =
      none :: List.replicate (closes.length - 1) none := by
    cases hcl : closes.length with
    | zero => omega
    | succ m => simp [List.replicate]
  rw [hrep]
  simp only [MarketData.calculateRSI]
  congr 1
  refine List.eq_replicate_iff.mpr ⟨by simp [hg], ?_⟩
  intro b hb
  simp only [List.mem_map, List.mem_range] at hb
  obtain ⟨i, hi, rfl⟩ := hb
  rw [if_pos (by omega)]

lemma macdSeries_short (closes : List ℚ) (fast slow sgp : ℕ) (h : closes.length < slow) :
    (BotSignals.macdSeries closes fast slow sgp).macd = List.replicate closes.length none ∧
    (BotSignals.macdSeries closes fast slow sgp).hist = List.replicate closes.length none := by
  have hmacd : (BotSignals.macdSeries closes fast slow sgp).macd =
      List.replicate closes.length none := by
    refine List.eq_replicate_iff.mpr ⟨by simp [BotSignals.macdSeries], ?_⟩
    intro b hb
    simp only [BotSignals.macdSeries, List.mem_map, List.mem_range] at hb
    obtain ⟨i, hi, rfl⟩ := hb
    rw [ema_short closes slow h, getD_replicate_none]
    rcases (BotSignals.ema closes fast).getD i none with _ | x <;> rfl
  refine ⟨hmacd, ?_⟩
  simp only [BotSignals.macdSeries] at hmacd ⊢
  refine List.eq_replicate_iff.mpr ⟨by simp, ?_⟩
  intro b hb
  simp only [List.mem_map, List.mem_range] at hb
  obtain ⟨i, hi, rfl⟩ := hb
  rw [hmacd, getD_replicate_none]

/-- C9 (amended): for every input shorter than the required history, `ema`,
`sma` and `rsiWilder` of `bot-signals.js`, and `calculateSMA` and (on
nonempty input) `calculateRSI` of `marketData.ts`, return an all-undefined
series of exactly the input's length, and `macdSeries`'s MACD line and
histogram are likewise all-undefined — with two exceptions shown in the
counterexample: `calculateRSI` on the empty series returns the one-element
series `[NaN]`, and `macdSeries`'s signal line may contain defined
zero-seeded entries on short input.  (`calculateEMA` of `marketData.ts` has
no minimum history, so no input is short for it.) -/
theorem short_input_all_undefined :
    (∀ (values : List ℚ) (p : ℕ), values.length < p →
      BotSignals.ema values p = List.replicate values.length none) ∧
    (∀ (values : List ℚ) (p : ℕ), values.length < p →
      BotSignals.sma values p = List.replicate values.length none) ∧
    (∀ (closes : List ℚ) (p : ℕ), closes.length ≤ p →
      BotSignals.rsiWilder closes p = List.replicate closes.length none) ∧
    (∀ (values : List ℚ) (p : ℕ), values.length < p →
      MarketData.calculateSMA values p = List.replicate values.length none) ∧
    (∀ (closes : List ℚ) (p : ℕ), closes.length ≠ 0 → closes.length ≤ p →
      MarketData.calculateRSI closes p = List.replicate closes.length none) ∧
    (∀ (closes : List ℚ) (fast slow sgp : ℕ), closes.length < slow →
      (BotSignals.macdSeries closes fast slow sgp).macd
          = List.replicate closes.length none ∧
      (BotSignals.macdSeries closes fast slow sgp).hist
          = List.replicate closes.length none) :=
  ⟨ema_short, sma_short, rsiWilder_short, calculateSMA_short, calculateRSI_short,
    macdSeries_short⟩

/-- C9 (witness): the all-undefined short-input behaviour instantiated on
concrete short series. -/
theorem short_input_all_undefined_witness :
    BotSignals.ema [1] 2 = [none] ∧
    BotSignals.sma [1] 2 = [none] ∧
    BotSignals.rsiWilder [1] 1 = [none] ∧
    MarketData.calculateSMA [1] 2 = [none] ∧
    MarketData.calculateRSI [1] 1 = [none] ∧
    (BotSignals.macdSeries [1] 2 3 1).macd = [none] ∧
    (BotSignals.macdSeries [1] 2 3 1).hist = [none] :=
  ⟨short_input_all_undefined.1 [1] 2 (by norm_num),
   short_input_all_undefined.2.1 [1] 2 (by norm_num),
   short_input_all_undefined.2.2.1 [1] 1 (by norm_num),
   short_input_all_undefined.2.2.2.1 [1] 2 (by norm_num),
   short_input_all_undefined.2.2.2.2.1 [1] 1 (by norm_num) (by norm_num),
   (short_input_all_undefined.2.2.2.2.2 [1] 2 3 1 (by norm_num)).1,
   (short_input_all_undefined.2.2.2.2.2 [1] 2 3 1 (by norm_num)).2⟩

lemma jsOrNullOpt_eq_none_iff (v : Option ℚ) :
    MarketData.jsOrNullOpt v = none ↔ (v = none ∨ v = some 0) := by
  rcases v with _ | x
  · simp [MarketData.jsOrNullOpt]
  · simp only [MarketData.jsOrNullOpt]
    split_ifs with h
    · simp [h]
    · simp [h]

lemma jsOrNull_eq_none_iff (x : ℚ) : MarketData.jsOrNull x = none ↔ x = 0 := by
  unfold MarketData.jsOrNull
  split_ifs with h <;> simp [h]

/-- C10: per bar index, `processMarketData` stores `null` for an indicator
column exactly when the computed value is undefined (`NaN`) or exactly `0`
(JavaScript `x || null`), so a legitimately computed zero — e.g. the RSI `0`
of the falling series `[2, 1]` with period 1 — is stored identically to a
warm-up undefined value: both columns of `[2, 1]` read `null`. -/
theorem stored_zero_coalescing :
    (∀ (closes : List ℚ) (cfg : MarketData.IndicatorConfig) (i : ℕ), i < closes.length →
      ((((MarketData.storedIndicators closes cfg).getD i ⟨none, none, none, none⟩).rsi = none ↔
        ((MarketData.calculateRSI closes cfg.rsiPeriod).getD i none = none ∨
         (MarketData.calculateRSI closes cfg.rsiPeriod).getD i none = some 0)) ∧
       (((MarketData.storedIndicators closes cfg).getD i ⟨none, none, none, none⟩).macd = none ↔
        (MarketData.calculateMACD closes cfg.macdFast cfg.macdSlow
            cfg.macdSignal).macd.getD i 0 = 0) ∧
       (((MarketData.storedIndicators closes cfg).getD i
            ⟨none, none, none, none⟩).macdSignal = none ↔
        ((MarketData.calculateMACD closes cfg.macdFast cfg.macdSlow
            cfg.macdSignal).signal.getD i none = none ∨
         (MarketData.calculateMACD closes cfg.macdFast cfg.macdSlow
            cfg.macdSignal).signal.getD i none = some 0)) ∧
       (((MarketData.storedIndicators closes cfg).getD i
            ⟨none, none, none, none⟩).macdHistogram = none ↔
        ((MarketData.calculateMACD closes cfg.macdFast cfg.macdSlow
            cfg.macdSignal).histogram.getD i none = none ∨
         (MarketData.calculateMACD closes cfg.macdFast cfg.macdSlow
            cfg.macdSignal).histogram.getD i none = some 0)))) ∧
    ((MarketData.storedIndicators [2, 1] ⟨8, 17, 9, 1, 20⟩).map (fun r => r.rsi)
        = [none, none]) ∧
    (MarketData.calculateRSI [2, 1] 1 = [none, some 0]) := by
  refine ⟨?_, ?_, ?_⟩
  · intro closes cfg i hi
    simp only [MarketData.storedIndicators]
    rw [getD_range_map _ _ _ _ hi]
    exact ⟨jsOrNullOpt_eq_none_iff _, jsOrNull_eq_none_iff _, jsOrNullOpt_eq_none_iff _,
      jsOrNullOpt_eq_none_iff _⟩
  · norm_num [MarketData.storedIndicators, MarketData.calculateRSI, MarketData.jsOrNullOpt,
      Indicators.gainsOf, Indicators.lossesOf, Indicators.diffs, List.range_succ]
  · norm_num [MarketData.calculateRSI, Indicators.gainsOf, Indicators.lossesOf,
      Indicators.diffs, List.range_succ]

/-- C10 (witness): the coalescing characterization instantiated at the
second bar of `[2, 1]`, where the computed RSI is exactly `0` and the
stored column is `null`. -/
theorem stored_zero_coalescing_witness :
    ((MarketData.storedIndicators [2, 1] ⟨8, 17, 9, 1, 20⟩).getD 1
        ⟨none, none, none, none⟩).rsi = none ↔
      ((MarketData.calculateRSI [2, 1] 1).getD 1 none = none ∨
       (MarketData.calculateRSI [2, 1] 1).getD 1 none = some 0) :=
  (stored_zero_coalescing.1 [2, 1] ⟨8, 17, 9, 1, 20⟩ 1 (by norm_num)).1
